import Mathlib

/-!
Verification development for the quality-review and scoring pipeline
(`review_quality.py`, `summarize_quality_report.py`, `batch_review_quality.py`,
`batch_summarize_quality_reports.py`, `src/model.py`).

JSON values are embedded as an inductive `Json`; Python floats are embedded
as exact rationals (`ℚ`); fallible constructors return `Except`.
-/

namespace EnAgent

/-- A JSON value as decoded by Python's `json.loads`: objects are
insertion-ordered association lists, numbers are rationals. -/
inductive Json where
  | null
  | bool (b : Bool)
  | num (q : ℚ)
  | str (s : String)
  | arr (xs : List Json)
  | obj (kvs : List (String × Json))
deriving Repr, Inhabited

/-- Lookup in an association list, first match wins (Python `dict` keys are
unique after decoding, so first match is the only match). -/
def getKV : List (String × Json) → String → Option Json
  | [], _ => none
  | (k, v) :: rest, key => if k = key then some v else getKV rest key

/-- `d.get(key)` on a decoded JSON value: `none` both when the receiver is
not an object and when the key is absent (Python returns `None` for the
latter; every use in the source immediately type-tests the result, so the
`null`-valued-key case is indistinguishable from absence). -/
def Json.get : Json → String → Option Json
  | .obj kvs, key => getKV kvs key
  | _, _ => none

/-- `isinstance(x, list)` refinement: the element list when the value is a
JSON array. -/
def asList : Option Json → Option (List Json)
  | some (.arr xs) => some xs
  | _ => none

/-- `isinstance(x, dict)` refinement: the field list when the value is a
JSON object. -/
def asObj : Option Json → Option (List (String × Json))
  | some (.obj kvs) => some kvs
  | _ => none

/-- Digit run to its numeric value, as Python `int` on a digit string. -/
def digitsToNat (ds : List Char) : ℕ :=
  ds.foldl (fun a c => 10 * a + (c.toNat - '0'.toNat)) 0

/-- Unsigned decimal literal `digits [. digits]`; the forms of Python
`float(str)` with an exponent part, `inf` or `nan` are not modelled. -/
def parseUnsigned (cs : List Char) : Option ℚ :=
  let intPart := cs.takeWhile Char.isDigit
  let rest := cs.dropWhile Char.isDigit
  match rest with
  | [] => if intPart.isEmpty then none else some (digitsToNat intPart)
  | '.' :: rest2 =>
    let fracPart := rest2.takeWhile Char.isDigit
    let rest3 := rest2.dropWhile Char.isDigit
    if rest3.isEmpty ∧ ¬(intPart.isEmpty ∧ fracPart.isEmpty) then
      some ((digitsToNat intPart : ℚ) +
        (digitsToNat fracPart : ℚ) / ((10 : ℚ) ^ fracPart.length))
    else none
  | _ => none

/-- Strip leading and trailing whitespace from a character list. -/
def trimChars (cs : List Char) : List Char :=
  ((cs.dropWhile Char.isWhitespace).reverse.dropWhile Char.isWhitespace).reverse

/-- Python `float(s)` on a string: optional surrounding whitespace, optional
sign, decimal literal. -/
def parseFloatStr (s : String) : Option ℚ :=
  match trimChars s.data with
  | '+' :: rest => parseUnsigned rest
  | '-' :: rest => (parseUnsigned rest).map Neg.neg
  | cs => parseUnsigned cs

/-- `_safe_float(x)`: `float(x)` or `None` on failure.  `float` succeeds on
numbers, booleans and numeric strings and raises on `None`, lists and
dicts; a missing key (`none`) behaves as `float(None)`. -/
def safeFloat : Option Json → Option ℚ
  | some (.num q) => some q
  | some (.bool b) => some (if b then 1 else 0)
  | some (.str s) => parseFloatStr s
  | _ => none

/-- Count of entries whose `matches_provided` is exactly `True`
(`m is True` in the source; a non-object entry contributes no match). -/
def matchesTrueCount (entries : List Json) : ℕ :=
  entries.countP (fun b =>
    match b.get "matches_provided" with
    | some (.bool true) => true
    | _ => false)

/-- The `llm_judge` field of an item when it is an object
(`isinstance(llm, dict)`), kept as a `Json` value. -/
def judgeOf (item : Json) : Option Json :=
  match item.get "llm_judge" with
  | some (.obj kvs) => some (.obj kvs)
  | _ => none

/-- The item's `type` field when it is the literal string `s` (the source
compares `str(it.get("type", ""))` against `"cloze"`/`"reading"`; no other
decoded value stringifies to either literal). -/
def typeIs (item : Json) (s : String) : Bool :=
  match item.get "type" with
  | some (.str t) => t = s
  | _ => false

/-- `_compute_ai_accuracy(item)`: `(accuracy, correct, total)` derived by
priority from the judge output, mirroring the source's fall-through. -/
def computeAiAccuracy (item : Json) : Option ℚ × Option ℤ × Option ℕ :=
  match judgeOf item with
  | none => (none, none, none)
  | some llm =>
    if typeIs item "cloze" then
      match asList (llm.get "per_blank") with
      | some (e :: es) =>
        let total := (e :: es).length
        let correct := matchesTrueCount (e :: es)
        (some ((correct : ℚ) / (total : ℚ)), some (correct : ℤ), some total)
      | _ =>
        match asList (llm.get "predicted_answers") with
        | some (p :: ps) =>
          let total := (p :: ps).length
          match asList (llm.get "answer_mismatch_indices") with
          | some mm =>
            let correct : ℤ := (total : ℤ) - (mm.length : ℤ)
            (some ((correct : ℚ) / (total : ℚ)), some correct, some total)
          | none => (none, none, some total)
        | _ => (none, none, none)
    else if typeIs item "reading" then
      match asList (llm.get "per_question") with
      | some (e :: es) =>
        let total := (e :: es).length
        let correct := matchesTrueCount (e :: es)
        (some ((correct : ℚ) / (total : ℚ)), some (correct : ℤ), some total)
      | _ =>
        match asObj (llm.get "predicted_answers") with
        | some (p :: ps) =>
          let total := (p :: ps).length
          match asList (llm.get "answer_mismatch_ids") with
          | some mm =>
            let correct : ℤ := (total : ℤ) - (mm.length : ℤ)
            (some ((correct : ℚ) / (total : ℚ)), some correct, some total)
          | none => (none, none, some total)
        | _ => (none, none, none)
    else (none, none, none)

/-- Insert-or-overwrite on an insertion-ordered association list
(Python `out[k] = v`). -/
def upsert (m : List (String × ℚ)) (k : String) (v : ℚ) : List (String × ℚ) :=
  match m with
  | [] => [(k, v)]
  | (k1, v1) :: rest => if k1 = k then (k, v) :: rest else (k1, v1) :: upsert rest k v

/-- `_extract_aspect_scores(item)`: the judge's `overall_scores` with
non-numeric values dropped; `none` when absent, not a dict, empty, or
emptied by dropping. -/
def extractAspectScores (item : Json) : Option (List (String × ℚ)) :=
  match judgeOf item with
  | none => none
  | some llm =>
    match asObj (llm.get "overall_scores") with
    | some (kv :: kvs) =>
      let out := (kv :: kvs).foldl
        (fun acc p =>
          match safeFloat (some p.2) with
          | none => acc
          | some fv => upsert acc p.1 fv) []
      if out.isEmpty then none else some out
    | _ => none

/-- Compact per-item record built by `summarize_report`.  The
presentation-only string fields `source` and `name` (Python string
formatting of path / id / title) are not modelled. -/
structure ItemSummary where
  type : String
  score : ℚ
  aspect_scores : Option (List (String × ℚ))
  ai_accuracy : Option ℚ
  ai_correct : Option ℤ
  ai_total : Option ℕ
deriving Repr, DecidableEq, Inhabited

/-- One iteration of the item loop in `summarize_report`: `none` when the
item is skipped (not a dict, or `type` not in `{"cloze","reading"}`). -/
def mkItemSummary (it : Json) : Option ItemSummary :=
  if typeIs it "cloze" ∨ typeIs it "reading" then
    let t := if typeIs it "cloze" then "cloze" else "reading"
    let acc := computeAiAccuracy it
    some ⟨t, (safeFloat (it.get "score")).getD 0, extractAspectScores it,
      acc.1, acc.2.1, acc.2.2⟩
  else none

/-- The item loop of `summarize_report`.  `_safe_float(...) or 0.0` is
`(safeFloat ...).getD 0`: Python `x or 0.0` yields `0.0` exactly when `x`
is `None` or numerically zero, so the value agrees in every case. -/
def summarizeItems (items : List Json) : List ItemSummary :=
  items.filterMap mkItemSummary

/-- `_avg(xs)`: arithmetic mean, `0.0` on an empty list. -/
def avgQ (xs : List ℚ) : ℚ :=
  if xs.isEmpty then 0 else xs.sum / (xs.length : ℚ)

/-- `bucket.setdefault(k, []).append(v)`: append `v` to the entry of `k`,
creating the entry at the end when `k` is new. -/
def bucketAdd : List (String × List ℚ) → String → ℚ → List (String × List ℚ)
  | [], k, v => [(k, [v])]
  | (k1, vs) :: rest, k, v =>
    if k1 = k then (k1, vs ++ [v]) :: rest else (k1, vs) :: bucketAdd rest k v

/-- Fold one item's aspect dictionary into the bucket. -/
def bucketInsertAll (b : List (String × List ℚ)) (kvs : List (String × ℚ)) :
    List (String × List ℚ) :=
  kvs.foldl (fun b1 kv => bucketAdd b1 kv.1 kv.2) b

/-- One step of the `_avg_aspects` bucket loop: an item with a truthy
`aspect_scores` dictionary contributes all its `(k, v)` pairs,
any other item is skipped (`if not it.aspect_scores: continue`). -/
def aspectStep (b : List (String × List ℚ)) (it : ItemSummary) :
    List (String × List ℚ) :=
  match it.aspect_scores with
  | none => b
  | some kvs => if kvs.isEmpty then b else bucketInsertAll b kvs

/-- The bucket built by `_avg_aspects`: for each item with a truthy
`aspect_scores`, every `(k, v)` pair is appended to the bucket entry of `k`. -/
def aspectBucket (its : List ItemSummary) : List (String × List ℚ) :=
  its.foldl aspectStep []

/-- Stable insertion into a sorted list under a boolean order. -/
def insertLe {α : Type} (le : α → α → Bool) (a : α) : List α → List α
  | [] => [a]
  | b :: rest => if le a b then a :: b :: rest else b :: insertLe le a rest

/-- Stable insertion sort (models Python `sorted`; only the multiset of
elements is used by the theorems below). -/
def sortLe {α : Type} (le : α → α → Bool) : List α → List α
  | [] => []
  | a :: rest => insertLe le a (sortLe le rest)

/-- `sorted(bucket.items(), key=lambda x: x[0])`. -/
def sortPairs (b : List (String × List ℚ)) : List (String × List ℚ) :=
  sortLe (fun p q => decide (p.1 ≤ q.1)) b

/-- `_avg_aspects(items_)`: each aspect averaged across the items that
contain it; `None` when no item contributes any aspect. -/
def avgAspects (its : List ItemSummary) : Option (List (String × ℚ)) :=
  let b := aspectBucket its
  if b.isEmpty then none
  else some ((sortPairs b).map (fun kv => (kv.1, avgQ kv.2)))

/-- The `items` array of the report, `[]` unless it is a JSON list
(`report.get("items") if isinstance(..., list) else []`). -/
def reportItems (report : Json) : List Json :=
  match report.get "items" with
  | some (.arr xs) => xs
  | _ => []

/-- The cloze subsequence of the item summaries of a report. -/
def clozeSummaries (report : Json) : List ItemSummary :=
  (summarizeItems (reportItems report)).filter (fun x => x.type = "cloze")

/-- The reading subsequence of the item summaries of a report. -/
def readingSummaries (report : Json) : List ItemSummary :=
  (summarizeItems (reportItems report)).filter (fun x => x.type = "reading")

/-- The Summary document assembled by `summarize_report` (the pass-through
fields `generated_at`, `model`, `source_settings` carry the raw JSON). -/
structure Summary where
  generated_at : Option Json
  model : Option Json
  source_settings : Json
  counts_cloze : ℕ
  counts_reading : ℕ
  counts_total : ℕ
  cloze_avg_score : ℚ
  reading_avg_score : ℚ
  cloze_avg_aspect_scores : Option (List (String × ℚ))
  reading_avg_aspect_scores : Option (List (String × ℚ))
  cloze_avg_ai_accuracy : Option ℚ
  reading_avg_ai_accuracy : Option ℚ
  per_passage : List ItemSummary
deriving Repr, Inhabited

/-- `summarize_report(report)`: pure derivation of the Summary from one
Report document. -/
def summarize_report (report : Json) : Summary :=
  let sums := summarizeItems (reportItems report)
  let clozeItems := clozeSummaries report
  let readingItems := readingSummaries report
  let clozeScores := clozeItems.map (fun x => x.score)
  let readingScores := readingItems.map (fun x => x.score)
  let clozeAccs := clozeItems.filterMap (fun x => x.ai_accuracy)
  let readingAccs := readingItems.filterMap (fun x => x.ai_accuracy)
  { generated_at := report.get "generated_at"
  , model := report.get "model"
  , source_settings := (report.get "settings").getD (Json.obj [])
  , counts_cloze := clozeItems.length
  , counts_reading := readingItems.length
  , counts_total := sums.length
  , cloze_avg_score := avgQ clozeScores
  , reading_avg_score := avgQ readingScores
  , cloze_avg_aspect_scores := avgAspects clozeItems
  , reading_avg_aspect_scores := avgAspects readingItems
  , cloze_avg_ai_accuracy :=
      if clozeAccs.isEmpty then none else some (avgQ clozeAccs)
  , reading_avg_ai_accuracy :=
      if readingAccs.isEmpty then none else some (avgQ readingAccs)
  , per_passage := sums }

/-! ## src/model.py: item models and validators -/

/-- A four-way option group (labels A–D). -/
structure OptionGroup where
  A : String
  B : String
  C : String
  D : String
deriving Repr, DecidableEq, Inhabited

/-- A correct-answer label, the pydantic `Literal["A","B","C","D"]` after
the uppercasing normalizer. -/
inductive Answer where
  | A
  | B
  | C
  | D
deriving Repr, DecidableEq, Inhabited

/-- The raw fields of a `ClozeTest` before `check_consistency` runs. -/
structure ClozeTest where
  title : String
  content : String
  options : List OptionGroup
  answers : List Answer
deriving Repr, DecidableEq, Inhabited

/-- Drop a literal character sequence from the front, or fail. -/
def dropLit : List Char → List Char → Option (List Char)
  | [], rest => some rest
  | _, [] => none
  | p :: ps, c :: cs => if p = c then dropLit ps cs else none

/-- Fuel-indexed scanner for `re.findall(r'<question_(\d+)>', content)`:
left-to-right non-overlapping matches of the literal tag, a maximal
non-empty digit run, and the closing bracket (for this pattern the
regex's maximal munch on the digits never needs to backtrack). -/
def scanQNumsAux : ℕ → List Char → List ℕ
  | 0, _ => []
  | _ + 1, [] => []
  | fuel + 1, c :: cs =>
    match dropLit "<question_".data (c :: cs) with
    | some afterTag =>
      match afterTag.takeWhile Char.isDigit, afterTag.dropWhile Char.isDigit with
      | d :: ds, '>' :: rest => digitsToNat (d :: ds) :: scanQNumsAux fuel rest
      | _, _ => scanQNumsAux fuel cs
    | none => scanQNumsAux fuel cs

/-- All `<question_N>` capture values of the content, in order.  The fuel
`length + 1` dominates the recursion, which consumes at least one
character per step. -/
def findQuestionNums (content : String) : List ℕ :=
  scanQNumsAux (content.data.length + 1) content.data

/-- `ClozeTest.check_consistency`: blank / option-group / answer counts
must agree, and when blanks exist their indices must be exactly
`list(range(1, blank_count + 1))`. -/
def check_consistency (ct : ClozeTest) : Except String ClozeTest :=
  let qns := findQuestionNums ct.content
  let blankCount := qns.length
  if ¬(blankCount = ct.options.length ∧ blankCount = ct.answers.length) then
    Except.error "count mismatch: blanks, option groups and answers differ"
  else if ¬qns.isEmpty ∧ qns ≠ List.range' 1 blankCount then
    Except.error "blank indices are not the contiguous sequence 1..N"
  else Except.ok ct

/-- Constructing a `ClozeTest` through pydantic: field validation (already
reflected in the field types) followed by the `check_consistency` model
validator; an invalid value never escapes. -/
def mkClozeTest (title content : String) (options : List OptionGroup)
    (answers : List Answer) : Except String ClozeTest :=
  check_consistency ⟨title, content, options, answers⟩

/-- One reading-comprehension question (`QuestionItem`). -/
structure QuestionItem where
  id : ℤ
  prompt : String
  options : OptionGroup
  answer : Answer
  explanation : Option String
deriving Repr, DecidableEq, Inhabited

/-- The raw fields of a `ReadingTask` before `check_question_ids` runs. -/
structure ReadingTask where
  title : String
  content : String
  questions : List QuestionItem
deriving Repr, DecidableEq, Inhabited

/-- `ReadingTask.check_question_ids`: at least one question, no duplicate
ids, and the sorted ids are exactly `1..N`. -/
def check_question_ids (rt : ReadingTask) : Except String ReadingTask :=
  if rt.questions.isEmpty then
    Except.error "a reading task must contain at least one question"
  else
    let ids := rt.questions.map (fun q => q.id)
    if ids.eraseDups.length ≠ ids.length then
      Except.error "duplicate question ids"
    else if sortLe (fun a b => decide (a ≤ b)) ids ≠
        (List.range' 1 ids.length).map (fun n => (n : ℤ)) then
      Except.error "question ids are not contiguous from 1"
    else Except.ok rt

/-- Constructing a `ReadingTask` through pydantic: per-question field
validation followed by the `check_question_ids` model validator. -/
def mkReadingTask (title content : String) (questions : List QuestionItem) :
    Except String ReadingTask :=
  check_question_ids ⟨title, content, questions⟩

/-! ## review_quality.py: the batch reviewer

The rule checker, score fusion and judge wrappers live in
`services/quality_reviewer.py`, which is not among the available source
files; the review loop is therefore embedded parametrically in the rule
checker (`ruleCheck`), the fusion function (`overallScore`) and the item
type, exactly following the loop of `review_cloze_files` /
`review_reading_files`. -/

/-- The per-item rule tally dict (`rule_stats`); spec §3 `Stats`. -/
structure Stats where
  fatal_count : ℕ
  warning_count : ℕ
  info_count : ℕ
deriving Repr, DecidableEq, Inhabited

/-- The successful payload of one judge call; only its `overall_score`
feeds score fusion. -/
structure JudgeData where
  overall_score : Option ℚ
deriving Repr, DecidableEq, Inhabited

/-- The judge record stored on a ScoredItem: the fused-in overall score
when the call succeeded, and the recorded failure otherwise. -/
structure JudgeRecord where
  overall_score : Option ℚ
  error : Option String
deriving Repr, DecidableEq, Inhabited

/-- Modelled from the spec: `llm_judge_cloze` / `llm_judge_reading` of
`services/quality_reviewer.py` are not among the available source files.
Per §4.3 and §7(b), the wrapper invokes the Judge Adapter and a raised
failure is captured and recorded on the result for that single item
(error set, overall score absent) instead of propagating out of the call. -/
def llm_judge {α : Type} (adapter : α → Except String JudgeData) (item : α) :
    JudgeRecord :=
  match adapter item with
  | Except.ok j => ⟨j.overall_score, none⟩
  | Except.error e => ⟨none, some e⟩

/-- One reviewed item as appended to `per_item` (spec §3 `ScoredItem`); the
presentation fields `path`, `source_file`, `index_in_file`, `id` / `title`
are not modelled. -/
structure ScoredItem (ι : Type) where
  score : ℚ
  rule_issues : ι
  rule_stats : Stats
  llm_judge : Option JudgeRecord
deriving Repr, DecidableEq

/-- The accumulated per-group totals (spec §3 `Totals`). -/
structure Totals where
  count : ℕ
  fatal : ℕ
  warning : ℕ
  info : ℕ
  avg_score : ℚ
deriving Repr, DecidableEq, Inhabited

/-- Review one item: rule check, optional judge call, score fusion
(`overall_score(issues, llm_judge.get("overall_score") if llm_judge else
None)`). -/
def reviewOne {α ι : Type} (ruleCheck : α → ι × Stats)
    (overallScore : ι → Option ℚ → ℚ)
    (judge : Option (α → Except String JudgeData)) (item : α) : ScoredItem ι :=
  let rc := ruleCheck item
  let lj := judge.map (fun adapter => llm_judge adapter item)
  let score := overallScore rc.1 (lj.bind (fun j => j.overall_score))
  ⟨score, rc.1, rc.2, lj⟩

/-- The mutable loop state of the review loop: the growing `per_item`
list, the four running totals, and the collected `scores`. -/
structure ReviewAcc (ι : Type) where
  per_item : List (ScoredItem ι)
  count : ℕ
  fatal : ℕ
  warning : ℕ
  info : ℕ
  scores : List ℚ
deriving Repr

/-- One iteration of the review loop body. -/
def reviewStep {α ι : Type} (ruleCheck : α → ι × Stats)
    (overallScore : ι → Option ℚ → ℚ)
    (judge : Option (α → Except String JudgeData))
    (acc : ReviewAcc ι) (item : α) : ReviewAcc ι :=
  let rc := ruleCheck item
  let lj := judge.map (fun adapter => llm_judge adapter item)
  let score := overallScore rc.1 (lj.bind (fun j => j.overall_score))
  ⟨ acc.per_item ++ [⟨score, rc.1, rc.2, lj⟩]
  , acc.count + 1
  , acc.fatal + rc.2.fatal_count
  , acc.warning + rc.2.warning_count
  , acc.info + rc.2.info_count
  , acc.scores ++ [score] ⟩

/-- The review loop shared verbatim by `review_cloze_files` and
`review_reading_files`: walk every item of every file in order, append a
ScoredItem, accumulate the counts, and seal `avg_score` as the mean of the
collected scores (`0.0` when no item was reviewed). -/
def reviewFiles {α ι : Type} (ruleCheck : α → ι × Stats)
    (overallScore : ι → Option ℚ → ℚ)
    (judge : Option (α → Except String JudgeData))
    (files : List (List α)) : List (ScoredItem ι) × Totals :=
  let fin := files.foldl
    (fun acc file => file.foldl (reviewStep ruleCheck overallScore judge) acc)
    ⟨[], 0, 0, 0, 0, []⟩
  ( fin.per_item
  , ⟨ fin.count, fin.fatal, fin.warning, fin.info
    , if fin.scores.isEmpty then 0
      else fin.scores.sum / (fin.scores.length : ℚ) ⟩ )

/-- `review_cloze_files(files, llm)` with the loaded per-file item lists as
input (file loading is I/O outside the core). -/
def review_cloze_files {α ι : Type} (ruleCheck : α → ι × Stats)
    (overallScore : ι → Option ℚ → ℚ)
    (judge : Option (α → Except String JudgeData))
    (files : List (List α)) : List (ScoredItem ι) × Totals :=
  reviewFiles ruleCheck overallScore judge files

/-- `review_reading_files(files, llm)`: the same loop over reading tasks. -/
def review_reading_files {α ι : Type} (ruleCheck : α → ι × Stats)
    (overallScore : ι → Option ℚ → ℚ)
    (judge : Option (α → Except String JudgeData))
    (files : List (List α)) : List (ScoredItem ι) × Totals :=
  reviewFiles ruleCheck overallScore judge files

/-! ## CLI exit codes -/

/-- Exit-code behaviour of `review_quality.main`: both directories are
reviewed and the function returns `0` unconditionally — there is no
empty-input branch. -/
def review_quality_main_exit {α β ι κ : Type}
    (rcC : α → ι × Stats) (osC : ι → Option ℚ → ℚ)
    (jC : Option (α → Except String JudgeData))
    (rcR : β → κ × Stats) (osR : κ → Option ℚ → ℚ)
    (jR : Option (β → Except String JudgeData))
    (clozeFiles : List (List α)) (readingFiles : List (List β)) : ℕ :=
  let _cloze := review_cloze_files rcC osC jC clozeFiles
  let _reading := review_reading_files rcR osR jR readingFiles
  0

/-- `_infer_model_name` on a file stem: the part before the first
underscore, stripped, `"unknown"` when empty. -/
def inferModelName (stem : String) : String :=
  let first := String.mk (trimChars (stem.data.takeWhile (fun c => c ≠ '_')))
  if first = "" then "unknown" else first

/-- Substring test on character lists (`"quality_report_" in p.name`). -/
def containsSub (pat : List Char) : List Char → Bool
  | [] => (dropLit pat []).isSome
  | c :: cs => (dropLit pat (c :: cs)).isSome || containsSub pat cs

/-- One step of `_group_by_model`: append the stem to its model's group,
creating the group at the end when the model is new
(`defaultdict(list)` with insertion order). -/
def groupStep (g : List (String × List String)) (p : String) :
    List (String × List String) :=
  let m := inferModelName p
  if (g.find? (fun e => e.1 = m)).isSome then
    g.map (fun e => if e.1 = m then (e.1, e.2 ++ [p]) else e)
  else g ++ [(m, [p])]

/-- `_group_by_model`: file stems grouped by inferred model name. -/
def groupByModel (stems : List String) : List (String × List String) :=
  stems.foldl groupStep []

/-- Set insertion keeping first-seen order (models Python `set.update`;
the order is then normalised by `sorted`). -/
def addUnique (acc : List String) (x : String) : List String :=
  if x ∈ acc then acc else acc ++ [x]

/-- `_all_models`: the sorted union of the group keys. -/
def allModels (g1 g2 : List (String × List String)) : List String :=
  sortLe (fun a b => decide (a ≤ b))
    ((g1.map (fun e => e.1) ++ g2.map (fun e => e.1)).foldl addUnique [])

/-- Exit-code behaviour of `batch_review_quality.main`: `1` when no model
group was found (no input files at all), otherwise every group is reviewed
and the result is `0`. -/
def batch_review_main_exit (clozeStems readingStems : List String) : ℕ :=
  let models := allModels (groupByModel clozeStems) (groupByModel readingStems)
  if models.isEmpty then 1 else 0

/-- `_iter_reports`: the sorted file names containing `quality_report_`. -/
def iterReports (names : List String) : List String :=
  sortLe (fun a b => decide (a ≤ b))
    (names.filter (fun n => containsSub "quality_report_".data n.data))

/-- Exit-code behaviour of `batch_summarize_quality_reports.main`: `1`
when no report file is found, otherwise `0`. -/
def batch_summarize_main_exit (names : List String) : ℕ :=
  if (iterReports names).isEmpty then 1 else 0

/-! ## Helper lemmas -/

theorem reviewStep_fold {α ι : Type} (rc : α → ι × Stats)
    (os : ι → Option ℚ → ℚ) (j : Option (α → Except String JudgeData)) :
    ∀ (items : List α) (acc : ReviewAcc ι),
      items.foldl (reviewStep rc os j) acc =
        ⟨ acc.per_item ++ items.map (reviewOne rc os j)
        , acc.count + items.length
        , acc.fatal + (items.map (fun it => (rc it).2.fatal_count)).sum
        , acc.warning + (items.map (fun it => (rc it).2.warning_count)).sum
        , acc.info + (items.map (fun it => (rc it).2.info_count)).sum
        , acc.scores ++ items.map (fun it => (reviewOne rc os j it).score) ⟩ := by
  intro items
  induction items with
  | nil => intro acc; simp
  | cons it rest ih =>
    intro acc
    rw [List.foldl_cons, ih]
    simp only [reviewStep, reviewOne, List.map_cons, List.length_cons,
      List.sum_cons, List.append_assoc, List.singleton_append,
      ReviewAcc.mk.injEq]
    and_intros <;> first | trivial | omega

theorem isEmpty_map {α β : Type} (f : α → β) (l : List α) :
    (l.map f).isEmpty = l.isEmpty := by
  cases l <;> rfl

theorem foldl_flatten_eq {α β : Type} (f : β → α → β) :
    ∀ (L : List (List α)) (b : β),
      L.foldl (fun acc l => l.foldl f acc) b = L.flatten.foldl f b := by
  intro L
  induction L with
  | nil => intro b; rfl
  | cons l ls ih => intro b; simp [List.foldl_append, ih]

theorem reviewFiles_eq {α ι : Type} (rc : α → ι × Stats)
    (os : ι → Option ℚ → ℚ) (j : Option (α → Except String JudgeData))
    (files : List (List α)) :
    reviewFiles rc os j files =
      ( files.flatten.map (reviewOne rc os j)
      , ⟨ files.flatten.length
        , (files.flatten.map (fun it => (rc it).2.fatal_count)).sum
        , (files.flatten.map (fun it => (rc it).2.warning_count)).sum
        , (files.flatten.map (fun it => (rc it).2.info_count)).sum
        , if files.flatten.isEmpty then 0
          else (files.flatten.map (fun it => (reviewOne rc os j it).score)).sum /
            (files.flatten.length : ℚ) ⟩ ) := by
  unfold reviewFiles
  rw [foldl_flatten_eq, reviewStep_fold]
  simp only [List.nil_append, Nat.zero_add, isEmpty_map, List.length_map]

theorem reportItems_eq_nil (report : Json)
    (h : asList (report.get "items") = none) : reportItems report = [] := by
  unfold reportItems
  cases hval : report.get "items" with
  | none => rfl
  | some v => cases v <;> simp_all [asList]

/-! ## Claim C4 -/

/-- C4: applying `summarize_report` to a malformed Report whose `items`
key is missing or not a list yields an empty Summary with zero counts and
an empty per-item list; `summarize_report` is a total function, so no
exception is possible. -/
theorem C4_malformed_report_empty_summary (report : Json)
    (h : asList (report.get "items") = none) :
    (summarize_report report).counts_cloze = 0 ∧
    (summarize_report report).counts_reading = 0 ∧
    (summarize_report report).counts_total = 0 ∧
    (summarize_report report).per_passage = [] := by
  have hitems := reportItems_eq_nil report h
  simp [summarize_report, clozeSummaries, readingSummaries, summarizeItems, hitems]

/-- C4 witness: a report whose `items` is a number. -/
theorem C4_witness :
    asList ((Json.obj [("items", Json.num 3)]).get "items") = none ∧
    (summarize_report (Json.obj [("items", Json.num 3)])).counts_cloze = 0 ∧
    (summarize_report (Json.obj [("items", Json.num 3)])).counts_reading = 0 ∧
    (summarize_report (Json.obj [("items", Json.num 3)])).counts_total = 0 ∧
    (summarize_report (Json.obj [("items", Json.num 3)])).per_passage = [] := by
  refine ⟨rfl, ?_⟩
  exact C4_malformed_report_empty_summary (Json.obj [("items", Json.num 3)]) rfl

/-! ## Claim C1 -/

/-- A concrete rule checker for instantiating the parametric review loop:
the issue value is the item itself and the stats tally is derived from it. -/
def rcNat (n : ℕ) : ℕ × Stats := (n, ⟨n, 2 * n, 1⟩)

/-- A concrete fusion function for instantiating the review loop. -/
def osNat (issues : ℕ) (judgeScore : Option ℚ) : ℚ :=
  judgeScore.getD (100 - (issues : ℚ))

/-- C1 counterexample: over a category with zero reviewed items both the
Summarizer's per-category average score and the Totals `avg_score` are the
number `0.0`, not a "no data" marker, contradicting the claim at the empty
report / empty input-file list. -/
theorem C1_counterexample :
    (summarize_report (Json.obj [("items", Json.arr [])])).cloze_avg_score = 0 ∧
    (summarize_report (Json.obj [("items", Json.arr [])])).reading_avg_score = 0 ∧
    (review_cloze_files rcNat osNat none []).2.avg_score = 0 ∧
    (review_cloze_files rcNat osNat none []).2.count = 0 ∧
    (review_reading_files rcNat osNat none []).2.avg_score = 0 := by
  exact ⟨rfl, rfl, rfl, rfl, rfl⟩

/-- C1 (amended): for a category with zero reviewed items the reported
average score is `0.0` — both in the Summarizer and in the reviewer's
Totals — and no exception is raised (both functions are total); only the
aspect-score and AI-accuracy aggregates use a "no data" marker. -/
theorem C1_amended {α ι : Type} (rc : α → ι × Stats) (os : ι → Option ℚ → ℚ)
    (j : Option (α → Except String JudgeData)) (files : List (List α))
    (report : Json)
    (hc : clozeSummaries report = []) (hrd : readingSummaries report = [])
    (hf : files.flatten = []) :
    (summarize_report report).cloze_avg_score = 0 ∧
    (summarize_report report).reading_avg_score = 0 ∧
    (review_cloze_files rc os j files).2.avg_score = 0 ∧
    (review_reading_files rc os j files).2.avg_score = 0 := by
  have h1 := reviewFiles_eq rc os j files
  refine ⟨?_, ?_, ?_, ?_⟩
  · simp [summarize_report, hc, avgQ]
  · simp [summarize_report, hrd, avgQ]
  · simp [review_cloze_files, h1, hf]
  · simp [review_reading_files, h1, hf]

/-- C1 witness: the amended statement applied to the concrete empty report
and an empty file list. -/
theorem C1_amended_witness :
    clozeSummaries (Json.obj [("items", Json.arr [])]) = [] ∧
    readingSummaries (Json.obj [("items", Json.arr [])]) = [] ∧
    ((List.nil : List (List ℕ)).flatten = []) ∧
    ((summarize_report (Json.obj [("items", Json.arr [])])).cloze_avg_score = 0 ∧
     (summarize_report (Json.obj [("items", Json.arr [])])).reading_avg_score = 0 ∧
     (review_cloze_files rcNat osNat none []).2.avg_score = 0 ∧
     (review_reading_files rcNat osNat none []).2.avg_score = 0) :=
  ⟨rfl, rfl, rfl,
    C1_amended rcNat osNat none [] (Json.obj [("items", Json.arr [])]) rfl rfl rfl⟩

/-! ## Claim C9 -/

/-- C9: an item accepted by the summarizer loop whose `score` field is
missing or cannot be parsed as a number (`_safe_float` returns `None`) is
assigned the score `0.0` and still belongs to its category's summaries,
whose scores are exactly what the category average is taken over. -/
theorem C9_unparsable_score_defaults_zero (items : List Json) (it : Json)
    (s : ItemSummary) (hin : it ∈ items) (hmk : mkItemSummary it = some s)
    (hbad : safeFloat (it.get "score") = none) :
    s.score = 0 ∧ s ∈ summarizeItems items ∧
    (s.type = "cloze" →
      s ∈ (summarizeItems items).filter (fun x => x.type = "cloze")) ∧
    (s.type = "reading" →
      s ∈ (summarizeItems items).filter (fun x => x.type = "reading")) ∧
    ∀ report : Json,
      (summarize_report report).cloze_avg_score =
        avgQ ((clozeSummaries report).map (fun x => x.score)) ∧
      (summarize_report report).reading_avg_score =
        avgQ ((readingSummaries report).map (fun x => x.score)) := by
  have hscore : s.score = 0 := by
    simp only [mkItemSummary] at hmk
    split at hmk
    · injection hmk with h
      rw [← h]
      simp [hbad]
    · exact absurd hmk (by simp)
  refine ⟨hscore, ?_, ?_, ?_, ?_⟩
  · exact List.mem_filterMap.mpr ⟨it, hin, hmk⟩
  · intro ht
    exact List.mem_filter.mpr ⟨List.mem_filterMap.mpr ⟨it, hin, hmk⟩, by simp [ht]⟩
  · intro ht
    exact List.mem_filter.mpr ⟨List.mem_filterMap.mpr ⟨it, hin, hmk⟩, by simp [ht]⟩
  · intro report
    exact ⟨rfl, rfl⟩

/-- C9 witness: a cloze item with `score` equal to the unparsable string
`"n/a"` is summarised with score `0` and kept among the cloze summaries. -/
theorem C9_witness :
    (Json.obj [("type", Json.str "cloze"), ("score", Json.str "n/a")]) ∈
      [Json.obj [("type", Json.str "cloze"), ("score", Json.str "n/a")]] ∧
    mkItemSummary (Json.obj [("type", Json.str "cloze"), ("score", Json.str "n/a")]) =
      some ⟨"cloze", 0, none, none, none, none⟩ ∧
    safeFloat ((Json.obj [("type", Json.str "cloze"), ("score", Json.str "n/a")]).get "score") = none ∧
    ((⟨"cloze", 0, none, none, none, none⟩ : ItemSummary).score = 0 ∧
     (⟨"cloze", 0, none, none, none, none⟩ : ItemSummary) ∈
       summarizeItems [Json.obj [("type", Json.str "cloze"), ("score", Json.str "n/a")]]) := by
  refine ⟨List.mem_singleton.mpr rfl, by decide, by decide, ?_⟩
  have h := C9_unparsable_score_defaults_zero
    [Json.obj [("type", Json.str "cloze"), ("score", Json.str "n/a")]]
    (Json.obj [("type", Json.str "cloze"), ("score", Json.str "n/a")])
    ⟨"cloze", 0, none, none, none, none⟩
    (List.mem_singleton.mpr rfl) (by decide) (by decide)
  exact ⟨h.1, h.2.1⟩

/-! ## Claim C3 -/

/-- C3: `_compute_ai_accuracy` derives the accuracy by priority.  With no
judge object, or a type other than cloze/reading, accuracy is undefined.
For a cloze (resp. reading) item: a non-empty `per_blank` (resp.
`per_question`) list gives `matches_provided`-true count over entry count;
otherwise a non-empty `predicted_answers` list (resp. dict) together with a
present `answer_mismatch_indices` (resp. `answer_mismatch_ids`) list gives
(predicted − mismatch) / predicted; otherwise accuracy is `none`, never a
coerced zero. -/
theorem C3_ai_accuracy_priority (it : Json) :
    (judgeOf it = none → (computeAiAccuracy it).1 = none) ∧
    (typeIs it "cloze" = false → typeIs it "reading" = false →
      (computeAiAccuracy it).1 = none) ∧
    ∀ llm, judgeOf it = some llm →
      (typeIs it "cloze" = true →
        (∀ es, asList (llm.get "per_blank") = some es → es ≠ [] →
          (computeAiAccuracy it).1 =
            some ((matchesTrueCount es : ℚ) / (es.length : ℚ))) ∧
        ((asList (llm.get "per_blank") = none ∨
          asList (llm.get "per_blank") = some []) →
          (∀ ps ms, asList (llm.get "predicted_answers") = some ps → ps ≠ [] →
            asList (llm.get "answer_mismatch_indices") = some ms →
            (computeAiAccuracy it).1 =
              some ((((ps.length : ℤ) - (ms.length : ℤ)) : ℚ) / (ps.length : ℚ))) ∧
          ((asList (llm.get "predicted_answers") = none ∨
            asList (llm.get "predicted_answers") = some [] ∨
            asList (llm.get "answer_mismatch_indices") = none) →
            (computeAiAccuracy it).1 = none))) ∧
      (typeIs it "reading" = true →
        (∀ es, asList (llm.get "per_question") = some es → es ≠ [] →
          (computeAiAccuracy it).1 =
            some ((matchesTrueCount es : ℚ) / (es.length : ℚ))) ∧
        ((asList (llm.get "per_question") = none ∨
          asList (llm.get "per_question") = some []) →
          (∀ ps ms, asObj (llm.get "predicted_answers") = some ps → ps ≠ [] →
            asList (llm.get "answer_mismatch_ids") = some ms →
            (computeAiAccuracy it).1 =
              some ((((ps.length : ℤ) - (ms.length : ℤ)) : ℚ) / (ps.length : ℚ))) ∧
          ((asObj (llm.get "predicted_answers") = none ∨
            asObj (llm.get "predicted_answers") = some [] ∨
            asList (llm.get "answer_mismatch_ids") = none) →
            (computeAiAccuracy it).1 = none))) := by
  have hnotboth : ¬(typeIs it "cloze" = true ∧ typeIs it "reading" = true) := by
    rintro ⟨h1, h2⟩
    unfold typeIs at h1 h2
    cases hv : it.get "type" with
    | none => rw [hv] at h1; exact absurd h1 (by simp)
    | some v =>
      rw [hv] at h1 h2
      cases v <;> simp_all
  refine ⟨?_, ?_, ?_⟩
  · intro h
    simp [computeAiAccuracy, h]
  · intro h1 h2
    unfold computeAiAccuracy
    cases hj : judgeOf it with
    | none => rfl
    | some llm => simp [h1, h2]
  · intro llm hllm
    constructor
    · intro hcl
      constructor
      · intro es hes hne
        unfold computeAiAccuracy
        rw [hllm]
        simp only [hcl, if_true]
        rw [hes]
        cases es with
        | nil => exact absurd rfl hne
        | cons e rest => rfl
      · intro hpb
        constructor
        · intro ps ms hps hpne hms
          unfold computeAiAccuracy
          rw [hllm]
          simp only [hcl, if_true]
          rcases hpb with h | h <;> rw [h] <;>
            · rw [hps]
              cases ps with
              | nil => exact absurd rfl hpne
              | cons p rest =>
                rw [hms]
                simp [Int.cast_sub, Int.cast_natCast]
        · intro hpred
          unfold computeAiAccuracy
          rw [hllm]
          simp only [hcl, if_true]
          rcases hpb with h | h <;> rw [h] <;>
            · rcases hpred with h2 | h2 | h2
              · rw [h2]
              · rw [h2]
              · cases hps : asList (llm.get "predicted_answers") with
                | none => rfl
                | some ps =>
                  cases ps with
                  | nil => rfl
                  | cons p rest => rw [h2]
    · intro hrd
      have hncl : typeIs it "cloze" = false := by
        cases hc : typeIs it "cloze"
        · rfl
        · exact absurd ⟨hc, hrd⟩ hnotboth
      constructor
      · intro es hes hne
        unfold computeAiAccuracy
        rw [hllm]
        simp only [hncl, Bool.false_eq_true, if_false, hrd, if_true]
        rw [hes]
        cases es with
        | nil => exact absurd rfl hne
        | cons e rest => rfl
      · intro hpb
        constructor
        · intro ps ms hps hpne hms
          unfold computeAiAccuracy
          rw [hllm]
          simp only [hncl, Bool.false_eq_true, if_false, hrd, if_true]
          rcases hpb with h | h <;> rw [h] <;>
            · rw [hps]
              cases ps with
              | nil => exact absurd rfl hpne
              | cons p rest =>
                rw [hms]
                simp [Int.cast_sub, Int.cast_natCast]
        · intro hpred
          unfold computeAiAccuracy
          rw [hllm]
          simp only [hncl, Bool.false_eq_true, if_false, hrd, if_true]
          rcases hpb with h | h <;> rw [h] <;>
            · rcases hpred with h2 | h2 | h2
              · rw [h2]
              · rw [h2]
              · cases hps : asObj (llm.get "predicted_answers") with
                | none => rfl
                | some ps =>
                  cases ps with
                  | nil => rfl
                  | cons p rest => rw [h2]

/-- Concrete per-blank entries for the C3 witness: three entries, two with
`matches_provided` true. -/
def pbC3 : List Json :=
  [ Json.obj [("matches_provided", Json.bool true)]
  , Json.obj [("matches_provided", Json.bool true)]
  , Json.obj [("matches_provided", Json.bool false)] ]

/-- Concrete judge object for the C3 witness. -/
def llmC3 : Json := Json.obj [("per_blank", Json.arr pbC3)]

/-- Concrete cloze item for the C3 witness. -/
def itC3 : Json := Json.obj [("type", Json.str "cloze"), ("llm_judge", llmC3)]

/-- C3 witness: on a cloze item whose `per_blank` has three entries with
two matches, the first branch of the priority applies and the accuracy is
`2/3`. -/
theorem C3_witness :
    judgeOf itC3 = some llmC3 ∧ typeIs itC3 "cloze" = true ∧
    asList (llmC3.get "per_blank") = some pbC3 ∧ pbC3 ≠ [] ∧
    (computeAiAccuracy itC3).1 =
      some ((matchesTrueCount pbC3 : ℚ) / (pbC3.length : ℚ)) ∧
    (computeAiAccuracy itC3).1 = some ((2 : ℚ) / 3) := by
  have hne : pbC3 ≠ [] := by simp [pbC3]
  have happ :=
    (((C3_ai_accuracy_priority itC3).2.2 llmC3 rfl).1 rfl).1 pbC3 rfl hne
  refine ⟨rfl, rfl, rfl, hne, happ, ?_⟩
  rw [happ]
  have h2 : matchesTrueCount pbC3 = 2 := rfl
  have h3 : pbC3.length = 3 := rfl
  rw [h2, h3]
  norm_num

/-! ## Claim C6 -/

/-- C6: a `ClozeTest` construction succeeds exactly when the number of
`<question_i>` markers found in the content equals the option-group count
and the answer count and the marker indices are exactly the contiguous
sequence `1..N`; every constructed value satisfies the invariant and any
violating input is rejected with a validation error. -/
theorem C6_cloze_invariant (title content : String)
    (options : List OptionGroup) (answers : List Answer) :
    (∀ ct, mkClozeTest title content options answers = Except.ok ct →
      ct.content = content ∧ ct.options = options ∧ ct.answers = answers ∧
      (findQuestionNums ct.content).length = ct.options.length ∧
      (findQuestionNums ct.content).length = ct.answers.length ∧
      findQuestionNums ct.content =
        List.range' 1 (findQuestionNums ct.content).length) ∧
    (¬((findQuestionNums content).length = options.length ∧
       (findQuestionNums content).length = answers.length ∧
       findQuestionNums content =
         List.range' 1 (findQuestionNums content).length) →
      ∃ e, mkClozeTest title content options answers = Except.error e) := by
  constructor
  · intro ct hok
    unfold mkClozeTest check_consistency at hok
    by_cases h1 : (findQuestionNums content).length = options.length ∧
        (findQuestionNums content).length = answers.length
    · rw [if_neg (by simpa using h1)] at hok
      by_cases h2 : ¬(findQuestionNums content).isEmpty ∧
          findQuestionNums content ≠
            List.range' 1 (findQuestionNums content).length
      · rw [if_pos h2] at hok
        exact absurd hok (by simp)
      · rw [if_neg h2] at hok
        injection hok with hok
        subst hok
        refine ⟨rfl, rfl, rfl, h1.1, h1.2, ?_⟩
        rcases not_and_or.mp h2 with h3 | h3
        · have : findQuestionNums content = [] := by
            simpa [List.isEmpty_iff] using h3
          simp [this]
        · exact not_not.mp h3
    · rw [if_pos (by simpa using h1)] at hok
      exact absurd hok (by simp)
  · intro hbad
    unfold mkClozeTest check_consistency
    by_cases h1 : (findQuestionNums content).length = options.length ∧
        (findQuestionNums content).length = answers.length
    · rw [if_neg (by simpa using h1)]
      have h3 : findQuestionNums content ≠
          List.range' 1 (findQuestionNums content).length := by
        intro heq
        exact hbad ⟨h1.1, h1.2, heq⟩
      have h4 : ¬(findQuestionNums content).isEmpty := by
        intro hemp
        have : findQuestionNums content = [] := by
          simpa [List.isEmpty_iff] using hemp
        exact h3 (by simp [this])
      rw [if_pos ⟨h4, h3⟩]
      exact ⟨_, rfl⟩
    · rw [if_pos (by simpa using h1)]
      exact ⟨_, rfl⟩

/-- A well-formed two-blank cloze input for the C6 witness. -/
def ogW : OptionGroup := ⟨"see", "meet", "hit", "kick"⟩

/-- C6 witness: a two-blank content with two option groups and two answers
is accepted and satisfies the invariant; the same input with only one
answer is rejected. -/
theorem C6_witness :
    mkClozeTest "t" "I <question_1> to <question_2> you." [ogW, ogW]
      [Answer.A, Answer.B] =
      Except.ok ⟨"t", "I <question_1> to <question_2> you.", [ogW, ogW],
        [Answer.A, Answer.B]⟩ ∧
    findQuestionNums "I <question_1> to <question_2> you." =
      List.range' 1 (findQuestionNums "I <question_1> to <question_2> you.").length ∧
    (findQuestionNums "I <question_1> to <question_2> you.").length =
      [ogW, ogW].length ∧
    ∃ e, mkClozeTest "t" "I <question_1> to <question_2> you." [ogW, ogW]
      [Answer.A] = Except.error e := by
  have h := C6_cloze_invariant "t" "I <question_1> to <question_2> you."
    [ogW, ogW] [Answer.A, Answer.B]
  have hok := h.1 ⟨"t", "I <question_1> to <question_2> you.", [ogW, ogW],
    [Answer.A, Answer.B]⟩ rfl
  have h2 := (C6_cloze_invariant "t" "I <question_1> to <question_2> you."
    [ogW, ogW] [Answer.A]).2 (by decide)
  exact ⟨rfl, hok.2.2.2.2.2, hok.2.2.2.1, h2⟩

/-! ## Claim C10 -/

/-- C10: constructing a `ReadingTask` with an empty question list is
rejected with a validation error, and every successfully constructed
`ReadingTask` has a non-empty question list. -/
theorem C10_reading_nonempty (title content : String)
    (questions : List QuestionItem) :
    (questions = [] →
      ∃ e, mkReadingTask title content questions = Except.error e) ∧
    (∀ rt, mkReadingTask title content questions = Except.ok rt →
      rt.questions ≠ []) := by
  constructor
  · intro hq
    subst hq
    exact ⟨_, rfl⟩
  · intro rt hok hnil
    unfold mkReadingTask check_question_ids at hok
    by_cases hq : questions.isEmpty
    · rw [if_pos hq] at hok
      exact absurd hok (by simp)
    · rw [if_neg hq] at hok
      dsimp only at hok
      split at hok
      · exact absurd hok (by simp)
      · split at hok
        · exact absurd hok (by simp)
        · injection hok with hok
          subst hok
          have hq2 : questions = [] := by simpa using hnil
          rw [hq2] at hq
          exact hq rfl

/-- A single valid question for the C10 witness. -/
def qW : QuestionItem := ⟨1, "why", ogW, Answer.A, none⟩

/-- C10 witness: the empty question list is rejected, and a concrete
one-question task is accepted with a non-empty question list. -/
theorem C10_witness :
    (∃ e, mkReadingTask "t" "c" [] = Except.error e) ∧
    mkReadingTask "t" "c" [qW] = Except.ok ⟨"t", "c", [qW]⟩ ∧
    (⟨"t", "c", [qW]⟩ : ReadingTask).questions ≠ [] := by
  refine ⟨(C10_reading_nonempty "t" "c" []).1 rfl, rfl, ?_⟩
  exact (C10_reading_nonempty "t" "c" [qW]).2 ⟨"t", "c", [qW]⟩ rfl

/-! ## Claim C8 -/

/-- C8: for every run of `review_cloze_files` (and likewise
`review_reading_files`), the Totals satisfy: `count` is the number of
items reviewed, `fatal`/`warning`/`info` are the sums of the per-item
rule-stat counts, and when at least one item was reviewed `avg_score` is
the arithmetic mean of the per-item fused scores. -/
theorem C8_totals_accumulation {α ι : Type} (rc : α → ι × Stats)
    (os : ι → Option ℚ → ℚ) (j : Option (α → Except String JudgeData))
    (files : List (List α)) :
    ((review_cloze_files rc os j files).2.count = files.flatten.length ∧
     (review_cloze_files rc os j files).1.length = files.flatten.length ∧
     (review_cloze_files rc os j files).2.fatal =
       ((review_cloze_files rc os j files).1.map
         (fun s => s.rule_stats.fatal_count)).sum ∧
     (review_cloze_files rc os j files).2.warning =
       ((review_cloze_files rc os j files).1.map
         (fun s => s.rule_stats.warning_count)).sum ∧
     (review_cloze_files rc os j files).2.info =
       ((review_cloze_files rc os j files).1.map
         (fun s => s.rule_stats.info_count)).sum ∧
     (files.flatten ≠ [] →
       (review_cloze_files rc os j files).2.avg_score =
         ((review_cloze_files rc os j files).1.map (fun s => s.score)).sum /
           (((review_cloze_files rc os j files).2.count : ℚ)))) ∧
    review_reading_files rc os j files = review_cloze_files rc os j files := by
  have h := reviewFiles_eq rc os j files
  constructor
  · unfold review_cloze_files
    rw [h]
    refine ⟨rfl, by simp only [List.length_map], ?_, ?_, ?_, ?_⟩
    · rw [List.map_map]; exact rfl
    · rw [List.map_map]; exact rfl
    · rw [List.map_map]; exact rfl
    · intro hne
      rw [if_neg (by simpa [List.isEmpty_iff] using hne)]
      rw [List.map_map]; exact rfl
  · rfl

/-- C8 witness: two items in one file and one in a second file, judging
disabled; all Totals fields agree with the per-item tallies and the mean. -/
theorem C8_witness :
    ([[1, 2], [3]] : List (List ℕ)).flatten ≠ [] ∧
    (review_cloze_files rcNat osNat none [[1, 2], [3]]).2.count = 3 ∧
    (review_cloze_files rcNat osNat none [[1, 2], [3]]).2.fatal = 6 ∧
    (review_cloze_files rcNat osNat none [[1, 2], [3]]).2.warning = 12 ∧
    (review_cloze_files rcNat osNat none [[1, 2], [3]]).2.info = 3 ∧
    (review_cloze_files rcNat osNat none [[1, 2], [3]]).2.avg_score =
      ((review_cloze_files rcNat osNat none [[1, 2], [3]]).1.map
        (fun s => s.score)).sum /
        (((review_cloze_files rcNat osNat none [[1, 2], [3]]).2.count : ℚ)) := by
  have h := (C8_totals_accumulation rcNat osNat none [[1, 2], [3]]).1
  exact ⟨by decide, by decide, by decide, by decide, by decide,
    h.2.2.2.2.2 (by decide)⟩

/-! ## Claim C2 -/

/-- C2: with the Judge Adapter enabled, a failure of the adapter on the
`k`-th item is recorded on that item's ScoredItem (`error` set), the
item's score falls back to rules-only fusion (judge score `none`), and the
batch is not aborted: every item of every file still yields a ScoredItem,
in both `review_cloze_files` and `review_reading_files`. -/
theorem C2_judge_failure_recovered {α ι : Type} (rc : α → ι × Stats)
    (os : ι → Option ℚ → ℚ) (adapter : α → Except String JudgeData)
    (files : List (List α)) (k : ℕ) (item : α) (e : String)
    (hk : files.flatten.get? k = some item)
    (he : adapter item = Except.error e) :
    (review_cloze_files rc os (some adapter) files).1.length =
      files.flatten.length ∧
    (review_cloze_files rc os (some adapter) files).2.count =
      files.flatten.length ∧
    (review_cloze_files rc os (some adapter) files).1.get? k =
      some ⟨os (rc item).1 none, (rc item).1, (rc item).2,
        some ⟨none, some e⟩⟩ ∧
    (review_reading_files rc os (some adapter) files).1.get? k =
      some ⟨os (rc item).1 none, (rc item).1, (rc item).2,
        some ⟨none, some e⟩⟩ := by
  have h := reviewFiles_eq rc os (some adapter) files
  have hone : reviewOne rc os (some adapter) item =
      ⟨os (rc item).1 none, (rc item).1, (rc item).2, some ⟨none, some e⟩⟩ := by
    simp [reviewOne, llm_judge, he]
  have hget : (files.flatten.map (reviewOne rc os (some adapter))).get? k =
      some ⟨os (rc item).1 none, (rc item).1, (rc item).2,
        some ⟨none, some e⟩⟩ := by
    rw [List.get?_map, hk]
    simp [hone]
  refine ⟨?_, ?_, ?_, ?_⟩
  · unfold review_cloze_files
    rw [h]
    simp only [List.length_map]
  · unfold review_cloze_files
    rw [h]
  · unfold review_cloze_files
    rw [h]
    exact hget
  · unfold review_reading_files
    rw [h]
    exact hget

/-- A concrete adapter for the C2 witness: fails on item `2`, succeeds
elsewhere. -/
def adapterW (n : ℕ) : Except String JudgeData :=
  if n = 2 then Except.error "transport failure" else Except.ok ⟨some 90⟩

/-- C2 witness: in a three-item batch whose second item makes the adapter
raise, that item's ScoredItem records the failure and a rules-only score,
and all three items are still reviewed. -/
theorem C2_witness :
    ([[1, 2], [3]] : List (List ℕ)).flatten.get? 1 = some 2 ∧
    adapterW 2 = Except.error "transport failure" ∧
    ((review_cloze_files rcNat osNat (some adapterW) [[1, 2], [3]]).1.length = 3 ∧
     (review_cloze_files rcNat osNat (some adapterW) [[1, 2], [3]]).1.get? 1 =
       some ⟨osNat (rcNat 2).1 none, (rcNat 2).1, (rcNat 2).2,
         some ⟨none, some "transport failure"⟩⟩) := by
  have h := C2_judge_failure_recovered rcNat osNat adapterW [[1, 2], [3]] 1 2
    "transport failure" rfl rfl
  exact ⟨rfl, rfl, h.1, h.2.2.1⟩

/-! ## Claim C5 -/

theorem insertLe_ne_nil {α : Type} (le : α → α → Bool) (a : α) (l : List α) :
    insertLe le a l ≠ [] := by
  cases l with
  | nil => simp [insertLe]
  | cons b rest =>
    unfold insertLe
    split <;> simp

theorem sortLe_eq_nil_iff {α : Type} (le : α → α → Bool) (l : List α) :
    sortLe le l = [] ↔ l = [] := by
  cases l with
  | nil => simp [sortLe]
  | cons a rest => simp [sortLe, insertLe_ne_nil]

theorem mem_insertLe_self {α : Type} (le : α → α → Bool) (a : α) (l : List α) :
    a ∈ insertLe le a l := by
  induction l with
  | nil => simp [insertLe]
  | cons b rest ih =>
    unfold insertLe
    split
    · simp
    · exact List.mem_cons_of_mem b ih

theorem mem_insertLe_of_mem {α : Type} (le : α → α → Bool) (a x : α)
    (l : List α) (h : x ∈ l) : x ∈ insertLe le a l := by
  induction l with
  | nil => simp at h
  | cons b rest ih =>
    unfold insertLe
    rw [List.mem_cons] at h
    split
    · rcases h with h1 | h1
      · subst h1; simp
      · simp [h1]
    · rcases h with h1 | h1
      · subst h1; simp
      · exact List.mem_cons_of_mem b (ih h1)

theorem addUnique_ne_nil (acc : List String) (x : String) :
    addUnique acc x ≠ [] := by
  unfold addUnique
  split
  · rename_i h
    cases acc with
    | nil => exact absurd h (by simp)
    | cons y ys => simp
  · simp

theorem foldl_addUnique_ne_nil :
    ∀ (l : List String) (acc : List String), acc ≠ [] →
      l.foldl addUnique acc ≠ [] := by
  intro l
  induction l with
  | nil => intro acc h; simpa using h
  | cons x xs ih =>
    intro acc _
    exact ih (addUnique acc x) (addUnique_ne_nil acc x)

theorem foldl_addUnique_nil_iff (l : List String) :
    l.foldl addUnique [] = [] ↔ l = [] := by
  cases l with
  | nil => simp
  | cons x xs =>
    constructor
    · intro h
      exact absurd h
        (foldl_addUnique_ne_nil xs (addUnique [] x) (addUnique_ne_nil [] x))
    · intro h
      exact absurd h (by simp)

theorem groupStep_ne_nil (g : List (String × List String)) (p : String) :
    groupStep g p ≠ [] := by
  unfold groupStep
  dsimp only
  split
  · rename_i h
    cases g with
    | nil => exact absurd h (by simp [List.find?])
    | cons e rest => simp
  · simp

theorem foldl_groupStep_ne_nil :
    ∀ (stems : List String) (g : List (String × List String)), g ≠ [] →
      stems.foldl groupStep g ≠ [] := by
  intro stems
  induction stems with
  | nil => intro g h; simpa using h
  | cons p rest ih =>
    intro g _
    exact ih (groupStep g p) (groupStep_ne_nil g p)

theorem groupByModel_nil_iff (stems : List String) :
    groupByModel stems = [] ↔ stems = [] := by
  cases stems with
  | nil => simp [groupByModel]
  | cons p rest =>
    constructor
    · intro h
      exact absurd h (by
        unfold groupByModel
        rw [List.foldl_cons]
        exact foldl_groupStep_ne_nil rest (groupStep [] p) (groupStep_ne_nil [] p))
    · intro h
      exact absurd h (by simp)

theorem allModels_nil_iff (cs rs : List String) :
    allModels (groupByModel cs) (groupByModel rs) = [] ↔ (cs = [] ∧ rs = []) := by
  unfold allModels
  rw [sortLe_eq_nil_iff, foldl_addUnique_nil_iff, List.append_eq_nil,
    List.map_eq_nil, List.map_eq_nil, groupByModel_nil_iff, groupByModel_nil_iff]

/-- C5 counterexample: with no input items at all (both input directories
empty), `review_quality.main` still exits `0`, contradicting the claimed
non-zero exit when no input items are found. -/
theorem C5_counterexample :
    review_quality_main_exit rcNat osNat none rcNat osNat none
      ([] : List (List ℕ)) ([] : List (List ℕ)) = 0 := rfl

/-- C5 (amended): `batch_review_quality.main` and
`batch_summarize_quality_reports.main` exit `0` on success and `1` when no
input files (respectively no `quality_report_` files) are found, but
`review_quality.main` returns `0` unconditionally, even when no input
items are found. -/
theorem C5_amended {α β ι κ : Type} (rcC : α → ι × Stats)
    (osC : ι → Option ℚ → ℚ) (jC : Option (α → Except String JudgeData))
    (rcR : β → κ × Stats) (osR : κ → Option ℚ → ℚ)
    (jR : Option (β → Except String JudgeData))
    (clozeFiles : List (List α)) (readingFiles : List (List β))
    (clozeStems readingStems names : List String) :
    review_quality_main_exit rcC osC jC rcR osR jR clozeFiles readingFiles = 0 ∧
    (batch_review_main_exit clozeStems readingStems = 1 ↔
      (clozeStems = [] ∧ readingStems = [])) ∧
    (batch_review_main_exit clozeStems readingStems = 0 ↔
      ¬(clozeStems = [] ∧ readingStems = [])) ∧
    (batch_summarize_main_exit names = 1 ↔ iterReports names = []) ∧
    ((∀ n ∈ names, containsSub "quality_report_".data n.data = false) →
      batch_summarize_main_exit names = 1) ∧
    (∀ n ∈ names, containsSub "quality_report_".data n.data = true →
      batch_summarize_main_exit names = 0) := by
  refine ⟨rfl, ?_, ?_, ?_, ?_, ?_⟩
  · unfold batch_review_main_exit
    dsimp only
    rw [← allModels_nil_iff clozeStems readingStems, ← List.isEmpty_iff]
    split <;> simp_all
  · unfold batch_review_main_exit
    dsimp only
    rw [← allModels_nil_iff clozeStems readingStems, ← List.isEmpty_iff]
    split <;> simp_all
  · unfold batch_summarize_main_exit
    rw [← List.isEmpty_iff]
    split <;> simp_all
  · intro h
    unfold batch_summarize_main_exit iterReports
    rw [List.filter_eq_nil.mpr (by intro n hn; simp [h n hn])]
    rfl
  · intro n hn hsub
    unfold batch_summarize_main_exit
    rw [if_neg ?_]
    intro hemp
    rw [List.isEmpty_iff] at hemp
    have : n ∈ iterReports names := by
      unfold iterReports
      have hmemf : n ∈ names.filter
          (fun m => containsSub "quality_report_".data m.data) :=
        List.mem_filter.mpr ⟨hn, hsub⟩
      -- membership is preserved by the insertion sort
      clear hemp
      revert hmemf
      generalize names.filter (fun m => containsSub "quality_report_".data m.data) = l
      intro hmemf
      induction l with
      | nil => simp at hmemf
      | cons a rest ih =>
        rw [List.mem_cons] at hmemf
        unfold sortLe
        rcases hmemf with h1 | h1
        · subst h1
          exact mem_insertLe_self _ _ _
        · exact mem_insertLe_of_mem _ _ _ _ (ih h1)
    rw [hemp] at this
    simp at this

/-- C5 witness: the amended statement at concrete inputs — a non-empty
review run exits 0, an empty batch-review run exits 1, and a directory
with one report file makes batch-summarize exit 0. -/
theorem C5_witness :
    review_quality_main_exit rcNat osNat none rcNat osNat none
      ([[1]] : List (List ℕ)) ([] : List (List ℕ)) = 0 ∧
    batch_review_main_exit [] [] = 1 ∧
    batch_summarize_main_exit ["quality_report_a.json"] = 0 := by
  have h := C5_amended rcNat osNat none rcNat osNat none
    ([[1]] : List (List ℕ)) ([] : List (List ℕ)) [] [] ["quality_report_a.json"]
  refine ⟨h.1, h.2.1.mpr ⟨rfl, rfl⟩, ?_⟩
  exact h.2.2.2.2.2 "quality_report_a.json" (by simp) rfl

/-! ## Claim C7 -/

/-- First-match lookup in the aspect bucket, `[]` when the key is absent. -/
def lookupB : List (String × List ℚ) → String → List ℚ
  | [], _ => []
  | p :: rest, k => if p.1 = k then p.2 else lookupB rest k

/-- The values an aspect dictionary carries for key `k`. -/
def valsFor (kvs : List (String × ℚ)) (k : String) : List ℚ :=
  kvs.filterMap (fun kv => if kv.1 = k then some kv.2 else none)

/-- The values one item contributes to aspect `k` (nothing unless the item
has a truthy aspect dictionary). -/
def itemAspect (it : ItemSummary) (k : String) : List ℚ :=
  match it.aspect_scores with
  | none => []
  | some kvs => if kvs.isEmpty then [] else valsFor kvs k

/-- All values reported for aspect `k` across a list of item summaries, in
item order — exactly the items that report that aspect contribute. -/
def aspectValues (its : List ItemSummary) (k : String) : List ℚ :=
  (its.map (fun it => itemAspect it k)).flatten

theorem bucketAdd_lookup (k k2 : String) (v : ℚ) :
    ∀ b, lookupB (bucketAdd b k v) k2 =
      if k = k2 then lookupB b k2 ++ [v] else lookupB b k2 := by
  intro b
  induction b with
  | nil =>
    by_cases h : k = k2 <;> simp [bucketAdd, lookupB, h]
  | cons p rest ih =>
    obtain ⟨k1, vs⟩ := p
    unfold bucketAdd
    by_cases h1 : k1 = k
    · rw [if_pos h1]
      by_cases h2 : k = k2
      · subst h2
        simp [lookupB, h1]
      · have h3 : ¬(k1 = k2) := by rw [h1]; exact h2
        simp [lookupB, h3, h2]
    · rw [if_neg h1]
      by_cases h2 : k1 = k2
      · subst h2
        have h3 : ¬(k = k1) := fun hc => h1 hc.symm
        simp [lookupB, h3]
      · simp [lookupB, h2, ih]

theorem bucketInsertAll_lookup (k : String) :
    ∀ (kvs : List (String × ℚ)) (b : List (String × List ℚ)),
      lookupB (bucketInsertAll b kvs) k = lookupB b k ++ valsFor kvs k := by
  intro kvs
  induction kvs with
  | nil => intro b; simp [bucketInsertAll, valsFor]
  | cons kv rest ih =>
    intro b
    obtain ⟨k1, v1⟩ := kv
    unfold bucketInsertAll at ih ⊢
    rw [List.foldl_cons]
    rw [ih (bucketAdd b k1 v1)]
    rw [bucketAdd_lookup k1 k v1 b]
    by_cases h : k1 = k
    · rw [if_pos h]
      simp [valsFor, h]
    · rw [if_neg h]
      simp [valsFor, h]

theorem aspectStep_lookup (k : String) (b : List (String × List ℚ))
    (it : ItemSummary) :
    lookupB (aspectStep b it) k = lookupB b k ++ itemAspect it k := by
  unfold aspectStep itemAspect
  cases hsc : it.aspect_scores with
  | none => simp
  | some kvs =>
    by_cases h : kvs.isEmpty
    · simp [h]
    · simp only [h, if_false, Bool.false_eq_true]
      exact bucketInsertAll_lookup k kvs b

theorem foldl_aspectStep_lookup (k : String) :
    ∀ (its : List ItemSummary) (b : List (String × List ℚ)),
      lookupB (its.foldl aspectStep b) k = lookupB b k ++ aspectValues its k := by
  intro its
  induction its with
  | nil => intro b; simp [aspectValues]
  | cons it rest ih =>
    intro b
    rw [List.foldl_cons, ih, aspectStep_lookup]
    simp [aspectValues]

theorem aspectBucket_lookup (its : List ItemSummary) (k : String) :
    lookupB (aspectBucket its) k = aspectValues its k := by
  unfold aspectBucket
  rw [foldl_aspectStep_lookup]
  rfl

theorem bucketAdd_keys (b : List (String × List ℚ)) (k : String) (v : ℚ) :
    (bucketAdd b k v).map Prod.fst =
      if k ∈ b.map Prod.fst then b.map Prod.fst else b.map Prod.fst ++ [k] := by
  induction b with
  | nil => simp [bucketAdd]
  | cons p rest ih =>
    obtain ⟨k1, vs⟩ := p
    unfold bucketAdd
    by_cases h1 : k1 = k
    · rw [if_pos h1]
      simp [h1.symm]
    · rw [if_neg h1]
      have h2 : ¬(k = k1) := fun hc => h1 hc.symm
      simp only [List.map_cons, List.mem_cons, h2, false_or]
      rw [ih]
      by_cases h3 : k ∈ rest.map Prod.fst
      · simp [h3]
      · simp [h3]

theorem bucketAdd_keys_nodup (b : List (String × List ℚ)) (k : String) (v : ℚ)
    (h : (b.map Prod.fst).Nodup) : ((bucketAdd b k v).map Prod.fst).Nodup := by
  rw [bucketAdd_keys]
  by_cases h1 : k ∈ b.map Prod.fst
  · rw [if_pos h1]; exact h
  · rw [if_neg h1]
    simp [List.nodup_append, h, h1]

theorem bucketInsertAll_keys_nodup :
    ∀ (kvs : List (String × ℚ)) (b : List (String × List ℚ)),
      (b.map Prod.fst).Nodup → ((bucketInsertAll b kvs).map Prod.fst).Nodup := by
  intro kvs
  induction kvs with
  | nil => intro b h; exact h
  | cons kv rest ih =>
    intro b h
    unfold bucketInsertAll at ih ⊢
    rw [List.foldl_cons]
    exact ih (bucketAdd b kv.1 kv.2) (bucketAdd_keys_nodup b kv.1 kv.2 h)

theorem aspectStep_keys_nodup (b : List (String × List ℚ)) (it : ItemSummary)
    (h : (b.map Prod.fst).Nodup) : ((aspectStep b it).map Prod.fst).Nodup := by
  unfold aspectStep
  cases it.aspect_scores with
  | none => exact h
  | some kvs =>
    by_cases he : kvs.isEmpty
    · simpa [he] using h
    · simp only [he, if_false, Bool.false_eq_true]
      exact bucketInsertAll_keys_nodup kvs b h

theorem aspectBucket_keys_nodup (its : List ItemSummary) :
    ((aspectBucket its).map Prod.fst).Nodup := by
  unfold aspectBucket
  have hgen : ∀ (l : List ItemSummary) (b : List (String × List ℚ)),
      (b.map Prod.fst).Nodup → ((l.foldl aspectStep b).map Prod.fst).Nodup := by
    intro l
    induction l with
    | nil => intro b h; exact h
    | cons it rest ih =>
      intro b h
      rw [List.foldl_cons]
      exact ih (aspectStep b it) (aspectStep_keys_nodup b it h)
  exact hgen its [] (by simp)

theorem lookupB_of_mem :
    ∀ (b : List (String × List ℚ)) (k : String) (vs : List ℚ),
      (b.map Prod.fst).Nodup → (k, vs) ∈ b → lookupB b k = vs := by
  intro b
  induction b with
  | nil => intro k vs _ h; simp at h
  | cons p rest ih =>
    intro k vs hnd hmem
    obtain ⟨k1, vs1⟩ := p
    rw [List.mem_cons] at hmem
    rcases hmem with h1 | h1
    · injection h1 with h2 h3
      subst h2; subst h3
      simp [lookupB]
    · have hk1 : k1 ≠ k := by
        intro hc
        subst hc
        rw [List.map_cons, List.nodup_cons] at hnd
        exact hnd.1 (List.mem_map.mpr ⟨(k1, vs), h1, rfl⟩)
      rw [List.map_cons, List.nodup_cons] at hnd
      simp only [lookupB, hk1, if_false]
      exact ih k vs hnd.2 h1

theorem bucketAdd_snd_ne_nil (b : List (String × List ℚ)) (k : String) (v : ℚ)
    (h : ∀ p ∈ b, p.2 ≠ []) : ∀ p ∈ bucketAdd b k v, p.2 ≠ [] := by
  induction b with
  | nil =>
    intro p hp
    simp [bucketAdd] at hp
    subst hp
    simp
  | cons q rest ih =>
    obtain ⟨k1, vs⟩ := q
    intro p hp
    unfold bucketAdd at hp
    by_cases h1 : k1 = k
    · rw [if_pos h1] at hp
      rw [List.mem_cons] at hp
      rcases hp with h2 | h2
      · subst h2; simp
      · exact h p (List.mem_cons_of_mem _ h2)
    · rw [if_neg h1] at hp
      rw [List.mem_cons] at hp
      rcases hp with h2 | h2
      · subst h2
        exact h (k1, vs) (List.mem_cons_self _ _)
      · exact ih (fun q hq => h q (List.mem_cons_of_mem _ hq)) p h2

theorem bucketInsertAll_snd_ne_nil :
    ∀ (kvs : List (String × ℚ)) (b : List (String × List ℚ)),
      (∀ p ∈ b, p.2 ≠ []) → ∀ p ∈ bucketInsertAll b kvs, p.2 ≠ [] := by
  intro kvs
  induction kvs with
  | nil => intro b h; exact h
  | cons kv rest ih =>
    intro b h
    unfold bucketInsertAll at ih ⊢
    rw [List.foldl_cons]
    exact ih (bucketAdd b kv.1 kv.2) (bucketAdd_snd_ne_nil b kv.1 kv.2 h)

theorem aspectBucket_snd_ne_nil (its : List ItemSummary) :
    ∀ p ∈ aspectBucket its, p.2 ≠ [] := by
  unfold aspectBucket
  have hgen : ∀ (l : List ItemSummary) (b : List (String × List ℚ)),
      (∀ p ∈ b, p.2 ≠ []) → ∀ p ∈ l.foldl aspectStep b, p.2 ≠ [] := by
    intro l
    induction l with
    | nil => intro b h; exact h
    | cons it rest ih =>
      intro b h
      rw [List.foldl_cons]
      refine ih (aspectStep b it) ?_
      unfold aspectStep
      cases it.aspect_scores with
      | none => exact h
      | some kvs =>
        by_cases he : kvs.isEmpty
        · simpa [he] using h
        · simp only [he, if_false, Bool.false_eq_true]
          exact bucketInsertAll_snd_ne_nil kvs b h
  exact hgen its [] (by simp)

theorem mem_sortLe_iff {α : Type} (le : α → α → Bool) (x : α) :
    ∀ l, x ∈ sortLe le l ↔ x ∈ l := by
  intro l
  induction l with
  | nil => simp [sortLe]
  | cons a rest ih =>
    unfold sortLe
    constructor
    · intro h
      have hins : ∀ m, x ∈ insertLe le a m → x = a ∨ x ∈ m := by
        intro m
        induction m with
        | nil => intro hm; simpa [insertLe] using hm
        | cons b bs ihm =>
          intro hm
          unfold insertLe at hm
          split at hm
          · simpa using hm
          · rw [List.mem_cons] at hm
            rcases hm with h1 | h1
            · right; rw [List.mem_cons]; left; exact h1
            · rcases ihm h1 with h2 | h2
              · left; exact h2
              · right; exact List.mem_cons_of_mem b h2
      rcases hins _ h with h1 | h1
      · rw [List.mem_cons]; left; exact h1
      · rw [List.mem_cons]; right; exact (ih.mp h1)
    · intro h
      rw [List.mem_cons] at h
      rcases h with h1 | h1
      · subst h1; exact mem_insertLe_self le x _
      · exact mem_insertLe_of_mem le a x _ (ih.mpr h1)

/-- C7: in the Summary's overall section, every reported per-aspect
average equals the mean of exactly the values reported for that aspect by
the items of the category (items without that aspect contribute nothing),
the per-category AI-accuracy average is the mean of exactly the defined
accuracies, and when a category supplies no aspect data or no defined
accuracy the corresponding field is `none` rather than zero. -/
theorem C7_overall_aspect_and_accuracy (report : Json) :
    (∀ m, (summarize_report report).cloze_avg_aspect_scores = some m →
      ∀ k v, (k, v) ∈ m →
        v = avgQ (aspectValues (clozeSummaries report) k) ∧
        aspectValues (clozeSummaries report) k ≠ []) ∧
    (∀ m, (summarize_report report).reading_avg_aspect_scores = some m →
      ∀ k v, (k, v) ∈ m →
        v = avgQ (aspectValues (readingSummaries report) k) ∧
        aspectValues (readingSummaries report) k ≠ []) ∧
    ((∀ it ∈ clozeSummaries report,
        it.aspect_scores = none ∨ it.aspect_scores = some []) →
      (summarize_report report).cloze_avg_aspect_scores = none) ∧
    ((∀ it ∈ readingSummaries report,
        it.aspect_scores = none ∨ it.aspect_scores = some []) →
      (summarize_report report).reading_avg_aspect_scores = none) ∧
    (∀ a, (summarize_report report).cloze_avg_ai_accuracy = some a →
      a = avgQ ((clozeSummaries report).filterMap (fun x => x.ai_accuracy)) ∧
      (clozeSummaries report).filterMap (fun x => x.ai_accuracy) ≠ []) ∧
    (∀ a, (summarize_report report).reading_avg_ai_accuracy = some a →
      a = avgQ ((readingSummaries report).filterMap (fun x => x.ai_accuracy)) ∧
      (readingSummaries report).filterMap (fun x => x.ai_accuracy) ≠ []) ∧
    ((∀ it ∈ clozeSummaries report, it.ai_accuracy = none) →
      (summarize_report report).cloze_avg_ai_accuracy = none) ∧
    ((∀ it ∈ readingSummaries report, it.ai_accuracy = none) →
      (summarize_report report).reading_avg_ai_accuracy = none) := by
  have haspect : ∀ its : List ItemSummary, ∀ m, avgAspects its = some m →
      ∀ k v, (k, v) ∈ m →
        v = avgQ (aspectValues its k) ∧ aspectValues its k ≠ [] := by
    intro its m hm k v hkv
    unfold avgAspects at hm
    dsimp only at hm
    split at hm
    · exact absurd hm (by simp)
    · injection hm with hm
      subst hm
      rcases List.mem_map.mp hkv with ⟨⟨k1, vs⟩, hmem, heq⟩
      injection heq with he1 he2
      rw [← he1, ← he2]
      have hmemb : (k1, vs) ∈ aspectBucket its := by
        unfold sortPairs at hmem
        exact (mem_sortLe_iff (fun p q => decide (p.1 ≤ q.1)) (k1, vs)
          (aspectBucket its)).mp hmem
      have hlook : lookupB (aspectBucket its) k1 = vs :=
        lookupB_of_mem (aspectBucket its) k1 vs (aspectBucket_keys_nodup its) hmemb
      have hvals : aspectValues its k1 = vs := by
        rw [← aspectBucket_lookup, hlook]
      constructor
      · rw [hvals]
      · rw [hvals]
        exact aspectBucket_snd_ne_nil its (k1, vs) hmemb
  have hempty : ∀ its : List ItemSummary,
      (∀ it ∈ its, it.aspect_scores = none ∨ it.aspect_scores = some []) →
      avgAspects its = none := by
    intro its h
    have hb : aspectBucket its = [] := by
      unfold aspectBucket
      have hgen : ∀ (l : List ItemSummary),
          (∀ it ∈ l, it.aspect_scores = none ∨ it.aspect_scores = some []) →
          ∀ b, l.foldl aspectStep b = b := by
        intro l
        induction l with
        | nil => intro _ b; rfl
        | cons it rest ih =>
          intro hl b
          rw [List.foldl_cons]
          have hstep : aspectStep b it = b := by
            unfold aspectStep
            rcases hl it (List.mem_cons_self _ _) with h1 | h1 <;> rw [h1] <;> simp
          rw [hstep]
          exact ih (fun q hq => hl q (List.mem_cons_of_mem _ hq)) b
      exact hgen its h []
    unfold avgAspects
    rw [hb]
    rfl
  have hacc : ∀ its : List ItemSummary, ∀ a,
      (if (its.filterMap (fun x => x.ai_accuracy)).isEmpty then none
        else some (avgQ (its.filterMap (fun x => x.ai_accuracy)))) = some a →
      a = avgQ (its.filterMap (fun x => x.ai_accuracy)) ∧
      its.filterMap (fun x => x.ai_accuracy) ≠ [] := by
    intro its a ha
    split at ha
    · exact absurd ha (by simp)
    · injection ha with ha
      rename_i hne
      rw [List.isEmpty_iff] at hne
      exact ⟨ha.symm, hne⟩
  have haccnone : ∀ its : List ItemSummary,
      (∀ it ∈ its, it.ai_accuracy = none) →
      (if (its.filterMap (fun x => x.ai_accuracy)).isEmpty then none
        else some (avgQ (its.filterMap (fun x => x.ai_accuracy)))) =
        (none : Option ℚ) := by
    intro its h
    rw [if_pos ?_]
    rw [List.isEmpty_iff]
    exact List.filterMap_eq_nil.mpr h
  exact ⟨fun m hm => haspect (clozeSummaries report) m hm,
    fun m hm => haspect (readingSummaries report) m hm,
    hempty (clozeSummaries report),
    hempty (readingSummaries report),
    hacc (clozeSummaries report),
    hacc (readingSummaries report),
    haccnone (clozeSummaries report),
    haccnone (readingSummaries report)⟩

/-- Concrete cloze item for the C7 witness: judged aspect scores with one
numeric and one non-numeric entry, and a three-entry `per_blank`. -/
def itW7 : Json := Json.obj
  [ ("type", Json.str "cloze"), ("score", Json.num 80)
  , ("llm_judge", Json.obj
      [ ("per_blank", Json.arr pbC3)
      , ("overall_scores", Json.obj
          [("fluency", Json.num 4), ("accuracy", Json.str "x")]) ]) ]

/-- Concrete one-item report for the C7 witness. -/
def reportW7 : Json := Json.obj [("items", Json.arr [itW7])]

/-- C7 witness: the aspect average of the only reported aspect equals the
mean over the items reporting it (the value `avgQ [4] = 4`), the accuracy
average is over the defined accuracies, and the empty reading category
reports `none` for both. -/
theorem C7_witness :
    (summarize_report reportW7).cloze_avg_aspect_scores =
      some [("fluency", avgQ [4])] ∧
    avgQ [4] = (4 : ℚ) ∧
    (avgQ [4] = avgQ (aspectValues (clozeSummaries reportW7) "fluency") ∧
      aspectValues (clozeSummaries reportW7) "fluency" ≠ []) ∧
    ((clozeSummaries reportW7).filterMap (fun x => x.ai_accuracy) ≠ []) ∧
    (summarize_report reportW7).reading_avg_aspect_scores = none ∧
    (summarize_report reportW7).reading_avg_ai_accuracy = none := by
  have h := C7_overall_aspect_and_accuracy reportW7
  have hrs : readingSummaries reportW7 = [] := rfl
  have hasp : (summarize_report reportW7).cloze_avg_aspect_scores =
      some [("fluency", avgQ [4])] := rfl
  have haccv : (summarize_report reportW7).cloze_avg_ai_accuracy =
      some (avgQ ((clozeSummaries reportW7).filterMap
        (fun x => x.ai_accuracy))) := rfl
  refine ⟨hasp, by norm_num [avgQ], ?_, ?_, ?_, ?_⟩
  · exact h.1 [("fluency", avgQ [4])] hasp "fluency" (avgQ [4]) (by simp)
  · exact (h.2.2.2.2.1
      (avgQ ((clozeSummaries reportW7).filterMap (fun x => x.ai_accuracy)))
      haccv).2
  · refine h.2.2.2.1 ?_
    intro it hit
    rw [hrs] at hit
    simp at hit
  · refine h.2.2.2.2.2.2.2 ?_
    intro it hit
    rw [hrs] at hit
    simp at hit

end EnAgent
